import Mathlib

/-!
Shallow embedding of the RAG pipeline repository (FastAPI search endpoint,
Chroma vector-store wrapper, document loader, text splitter, LLM selection),
with theorems checking the natural-language specification against it.

Conventions:
* Python machine integers are modelled as `Int` / `Nat` (no overflow is
  relevant anywhere in this code base).
* Python floats (relevance scores) are modelled as rationals.
* Fallible Python code returns `Except PyError`.
* Configuration enum values are modelled by their underlying strings, which
  is how they are sourced from the environment.
-/

namespace Rag

/-- Python exception taxonomy used by this program. -/
inductive PyError
  | fileNotFound (msg : String)
  | valueError (msg : String)
  | typeError (msg : String)
  | runtime (msg : String)
deriving DecidableEq, Repr

/-- Metadata values appearing in this program: strings (source paths) and
integers (row numbers, start offsets). -/
inductive MetaVal
  | str (s : String)
  | int (n : Int)
deriving DecidableEq, Repr

/-- LangChain `Document`: page content plus a metadata mapping. -/
structure Document where
  page_content : String
  metadata : List (String × MetaVal)
deriving DecidableEq, Repr

/-- Python `dict.get(key, default)` on the metadata mapping. -/
def metaGetD (md : List (String × MetaVal)) (key : String) (dflt : MetaVal) : MetaVal :=
  match md.find? (fun kv => kv.1 == key) with
  | some kv => kv.2
  | none => dflt

/-- Python `dict[key] = v`: replace the binding in place if present, else append. -/
def setMeta (md : List (String × MetaVal)) (key : String) (v : MetaVal) :
    List (String × MetaVal) :=
  match md with
  | [] => [(key, v)]
  | kv :: rest =>
    if kv.1 == key then (key, v) :: rest else kv :: setMeta rest key v

/-- Characters stripped by Python `str.strip()` (its whitespace set). -/
def pyIsSpace (c : Char) : Bool :=
  c == ' ' || c == '\t' || c == '\n' || c == '\r' ||
    c == Char.ofNat 11 || c == Char.ofNat 12

/-- Python `str.strip()`: drop leading and trailing whitespace. -/
def pyStrip (s : String) : String :=
  String.mk (((s.toList.dropWhile pyIsSpace).reverse.dropWhile pyIsSpace).reverse)

/-- Round-half-to-even on rationals, Python `round` semantics for exact values. -/
def roundHalfEven (q : ℚ) : ℤ :=
  if q - ⌊q⌋ < 1 / 2 then ⌊q⌋
  else if 1 / 2 < q - ⌊q⌋ then ⌊q⌋ + 1
  else if ⌊q⌋ % 2 = 0 then ⌊q⌋ else ⌊q⌋ + 1

/-- Python `round(x, 4)`: round to four decimal places. -/
def round4 (q : ℚ) : ℚ := (roundHalfEven (q * 10000) : ℚ) / 10000

/-- Global configuration (`src/config.py` `Settings`), enum fields carried as
their underlying environment strings. -/
structure AppSettings where
  llm_provider : String
  embedding_provider : String
  vector_db_type : String
  vector_db_path : String
  chunk_size : Int
  chunk_overlap : Int
  openai_model_name : String
  google_model_name : String
  openai_embedding_model : String
  google_embedding_model : String
  huggingface_embedding_model : String
deriving DecidableEq, Repr

/-- The defaults declared in `src/config.py`. -/
def defaultSettings : AppSettings where
  llm_provider := "google"
  embedding_provider := "huggingface"
  vector_db_type := "chroma"
  vector_db_path := "data/vector_store"
  chunk_size := 1000
  chunk_overlap := 200
  openai_model_name := "gpt-4o"
  google_model_name := "gemini-2.5-flash"
  openai_embedding_model := "text-embedding-3-small"
  google_embedding_model := "models/embedding-001"
  huggingface_embedding_model := "all-MiniLM-L6-v2"

/-! ## Retrieval filter (`src/api/main.py` `search`) -/

/-- One formatted entry of the `/search` response body. -/
structure ResultRecord where
  content : String
  source : MetaVal
  job_title : MetaVal
  score : ℚ
  id : MetaVal
deriving DecidableEq, Repr

/-- Fixed relevance threshold of the search endpoint. -/
def SIMILARITY_THRESHOLD : ℚ := 3 / 10

/-- Body of the formatting loop in `search`: one response entry per
surviving `(doc, score)` pair. -/
def mkResultRecord (doc : Document) (score : ℚ) : ResultRecord where
  content := doc.page_content
  source := metaGetD doc.metadata "source" (MetaVal.str "Unknown")
  job_title := metaGetD doc.metadata "source" (MetaVal.str "N/A")
  score := round4 score
  id := metaGetD doc.metadata "row" (MetaVal.str "N/A")

/-- The `for doc, score in docs_with_scores` loop of `search`: keep entries
scoring at least the threshold, in order, formatting each. -/
def formatResults : List (Document × ℚ) → List ResultRecord
  | [] => []
  | (doc, score) :: rest =>
    if SIMILARITY_THRESHOLD ≤ score then
      mkResultRecord doc score :: formatResults rest
    else formatResults rest

/-! ## Store factory and search endpoint -/

/-- Initialized embedding model, by provider (`_get_embedding_model`). -/
inductive EmbeddingModel
  | openaiEmb (model : String)
  | googleEmb (model : String)
  | huggingfaceEmb (model : String)
deriving DecidableEq, Repr

/-- `ChromaVectorDB._get_embedding_model`: dispatch on the configured
embedding provider; unsupported values raise `ValueError`. -/
def get_embedding_model (s : AppSettings) : Except PyError EmbeddingModel :=
  if s.embedding_provider == "openai" then
    .ok (.openaiEmb s.openai_embedding_model)
  else if s.embedding_provider == "google" then
    .ok (.googleEmb s.google_embedding_model)
  else if s.embedding_provider == "huggingface" then
    .ok (.huggingfaceEmb s.huggingface_embedding_model)
  else
    .error (.valueError ("Unsupported Embedding Provider: " ++ s.embedding_provider))

/-- `get_vector_db` factory: only the chroma type is wired; constructing the
wrapper selects the embedding model. The constructed wrapper is represented
by its embedding model. -/
def get_vector_db (s : AppSettings) : Except PyError EmbeddingModel :=
  if s.vector_db_type == "chroma" then get_embedding_model s
  else .error (.valueError ("Unsupported Vector DB Type: " ++ s.vector_db_type))

/-- `ChromaVectorDB.store` property: raises `FileNotFoundError` when the
persistence path does not exist on disk. -/
def storeAccess (s : AppSettings) (pathExists : Bool) : Except PyError Unit :=
  if pathExists then .ok ()
  else .error (.fileNotFound ("No DB found at " ++ s.vector_db_path))

/-- External world the endpoint interacts with: whether the persistence path
exists, whether the similarity query itself raises, and what the store
returns for the request (its top-k neighbours, descending by score). -/
structure StoreWorld where
  pathExists : Bool
  similarityFails : Bool
  similarityResult : List (Document × ℚ)
deriving DecidableEq, Repr

/-- HTTP outcome of `POST /search`: a status code with the results body. -/
structure HttpResponse where
  status : Nat
  results : List ResultRecord
deriving DecidableEq, Repr

/-- Which externally visible calls the endpoint performed. -/
structure CallLog where
  factoryCalled : Bool
  storeAccessed : Bool
  similarityCalled : Bool
deriving DecidableEq, Repr

/-- Exception handlers at the bottom of `search`: `FileNotFoundError` maps to
503, any other exception to 500. -/
def errResponse : PyError → HttpResponse
  | .fileNotFound _ => { status := 503, results := [] }
  | _ => { status := 500, results := [] }

/-- The `POST /search` endpoint (`src/api/main.py` `search`): blank queries
short-circuit before the factory; then factory, store property, similarity
query, filter and format; exceptions map to 503 or 500. -/
def search (s : AppSettings) (w : StoreWorld) (query : String) :
    HttpResponse × CallLog :=
  if pyStrip query == "" then
    ({ status := 200, results := [] },
     { factoryCalled := false, storeAccessed := false, similarityCalled := false })
  else
    match get_vector_db s with
    | .error e =>
      (errResponse e,
       { factoryCalled := true, storeAccessed := false, similarityCalled := false })
    | .ok _ =>
      match storeAccess s w.pathExists with
      | .error e =>
        (errResponse e,
         { factoryCalled := true, storeAccessed := true, similarityCalled := false })
      | .ok _ =>
        if w.similarityFails then
          (errResponse (.runtime "similarity search failed"),
           { factoryCalled := true, storeAccessed := true, similarityCalled := true })
        else
          ({ status := 200, results := formatResults w.similarityResult },
           { factoryCalled := true, storeAccessed := true, similarityCalled := true })

/-! ## Document loader (`src/ingestion/loader.py`) -/

/-- Leading match of a pattern against a character list (used for substring
search and glob matching). -/
def listLeadMatch : List Char → List Char → Bool
  | [], _ => true
  | _ :: _, [] => false
  | a :: as2, b :: bs2 => a == b && listLeadMatch as2 bs2

/-- Substring containment on character lists. -/
def listHasSub (pat : List Char) : List Char → Bool
  | [] => listLeadMatch pat []
  | c :: rest => listLeadMatch pat (c :: rest) || listHasSub pat rest

/-- Glob matching with the `*` wildcard (the subset of `fnmatch` this
program uses, e.g. the pattern `*.pdf`). Each step consumes a pattern or a
name character, so `fuel = pattern length + name length` makes the
recursion structural and exact. -/
def globMatchAux : Nat → List Char → List Char → Bool
  | 0, ps, name => ps.isEmpty && name.isEmpty
  | fuel + 1, ps, name =>
    match ps, name with
    | [], [] => true
    | '*' :: ps2, [] => globMatchAux fuel ps2 []
    | '*' :: ps2, c :: cs2 =>
      globMatchAux fuel ps2 (c :: cs2) || globMatchAux fuel ('*' :: ps2) cs2
    | _ :: _, [] => false
    | [], _ :: _ => false
    | p :: ps2, c :: cs2 => p == c && globMatchAux fuel ps2 cs2

/-- Glob matching on file names, e.g. `fnmatchStr "*.pdf" "cv.pdf" = true`. -/
def fnmatchStr (pat name : String) : Bool :=
  globMatchAux (pat.toList.length + name.toList.length) pat.toList name.toList

instance {ε α : Type} [DecidableEq ε] [DecidableEq α] : DecidableEq (Except ε α) := fun a b =>
  match a, b with
  | .error e1, .error e2 =>
    if h : e1 = e2 then isTrue (by rw [h]) else isFalse (by intro hc; cases hc; exact h rfl)
  | .ok v1, .ok v2 =>
    if h : v1 = v2 then isTrue (by rw [h]) else isFalse (by intro hc; cases hc; exact h rfl)
  | .error _, .ok _ => isFalse (by intro hc; cases hc)
  | .ok _, .error _ => isFalse (by intro hc; cases hc)

/-- A file of the scanned directory, with the outcome its format parser
(`PyPDFLoader` for matched files) would produce for it. -/
structure DirFile where
  name : String
  parsed : Except String (List Document)
deriving DecidableEq, Repr

/-- Sequential parse of the glob-matched files by `DirectoryLoader.load` with
the default `silent_errors=False`: the first per-file failure raises. -/
def loadMatched : List DirFile → Except String (List Document)
  | [] => .ok []
  | f :: rest =>
    match f.parsed with
    | .error e => .error e
    | .ok docs =>
      match loadMatched rest with
      | .error e => .error e
      | .ok more => .ok (docs ++ more)

/-- `DirectoryLoader(directory_path, glob=pat, loader_cls=PyPDFLoader).load()`:
only files matching the glob are dispatched to the parser. -/
def directoryLoaderLoad (pat : String) (files : List DirFile) :
    Except String (List Document) :=
  loadMatched (files.filter (fun f => fnmatchStr pat f.name))

/-- `load_documents(directory_path)` of `src/ingestion/loader.py`: scans with
the fixed glob `*.pdf`; the surrounding `try` block logs any exception and
re-raises it (`raise e`), so errors propagate unchanged. -/
def load_documents (files : List DirFile) : Except String (List Document) :=
  match directoryLoaderLoad "*.pdf" files with
  | .ok docs => .ok docs
  | .error e => .error e

/-! ## Ingestion manager (`src/ingestion/manager.py`) and CLI ingest -/

/-- Parameter names of `load_documents` in `src/ingestion/loader.py`; the
function has no `**kwargs`. -/
def load_documents_params : List String := ["directory_path"]

/-- Python call binding for keyword arguments: a keyword argument whose name
is not a declared parameter raises `TypeError` (no `**kwargs` catch-all). -/
def kwargsAccepted (params : List String) (kwargNames : List String) : Bool :=
  kwargNames.all (fun k => params.contains k)

/-- `IngestionManager.load(source, **kwargs)`: extracts `glob_pattern` from
`kwargs` (default `*.pdf`) and calls
`load_documents(source, glob_pattern=pattern)`. The callee accepts no such
keyword, so the call itself raises `TypeError`. -/
def managerLoad (kwargs : List (String × String)) (files : List DirFile) :
    Except PyError (List Document) :=
  let _pattern :=
    match kwargs.find? (fun kv => kv.1 == "glob_pattern") with
    | some kv => kv.2
    | none => "*.pdf"
  if kwargsAccepted load_documents_params ["glob_pattern"] then
    match load_documents files with
    | .ok docs => .ok docs
    | .error e => .error (.runtime e)
  else
    .error (.typeError
      "load_documents() got an unexpected keyword argument glob_pattern")

/-! ## Vector-store write (`src/retrieval/vector_db.py` `create_vector_store`) -/

/-- Observable outcome of `create_vector_store`: state of the persistence
path afterwards (`none` = absent) plus which effects happened. -/
structure IngestEffects where
  fsAfter : Option (List Document)
  deletedExisting : Bool
  wrote : Bool
  warnedEmpty : Bool
deriving DecidableEq, Repr

/-- `ChromaVectorDB.create_vector_store(chunks)` acting on the persistence
path state `fs` (`none` when the path does not exist): an empty chunk list
logs a warning and returns; otherwise an existing path is removed with
`shutil.rmtree` and the chunks are written with `Chroma.from_documents`
(modelled as succeeding; its failure would re-raise). -/
def create_vector_store (chunks : List Document) (fs : Option (List Document)) :
    IngestEffects :=
  if chunks.isEmpty then
    { fsAfter := fs, deletedExisting := false, wrote := false, warnedEmpty := true }
  else
    { fsAfter := some chunks, deletedExisting := fs.isSome, wrote := true,
      warnedEmpty := false }

/-! ## LLM selection (`src/generation/llm.py` `RAGGenerator._get_llm_model`) -/

/-- Initialized chat model, by provider. -/
inductive LLMModel
  | googleChat (model : String)
  | openaiChat (model : String)
deriving DecidableEq, Repr

/-- The LLM providers the configuration enum declares as supported. -/
def supportedLLMProviders : List String := ["openai", "google"]

/-- `RAGGenerator._get_llm_model`: `if provider == GOOGLE` selects Gemini;
the bare `else` branch (commented `# LLMProvider.OPENAI` in the source)
selects the OpenAI model for every other provider value. There is no raise
branch. -/
def get_llm_model (s : AppSettings) : Except PyError LLMModel :=
  if s.llm_provider == "google" then
    .ok (.googleChat s.google_model_name)
  else
    .ok (.openaiChat s.openai_model_name)

/-! ## Text splitter (`src/ingestion/splitter.py` over LangChain's
`RecursiveCharacterTextSplitter`)

The splitting algorithm itself lives in the `langchain_text_splitters`
library; it is embedded here from that library's source because the claims
about `split_documents` are decided by it. The program always constructs the
splitter with the default separators and `add_start_index=True`; the
defaults `keep_separator=True` and `strip_whitespace=True` apply, so every
merge uses the empty separator. Sizes are `Int` as in Python. -/

/-- Default separator list of `RecursiveCharacterTextSplitter`. -/
def defaultSeparators : List String := ["\n\n", "\n", " ", ""]

/-- Sum of the lengths of a list of strings. -/
def sumLen (l : List String) : Nat := (l.map String.length).sum

/-- Separator selection loop of `_split_text`: the first separator that is
empty or occurs in the text is chosen, together with the remaining
separators; if none matches, the last separator is chosen with no
remainder. -/
def chooseSepAux (text : String) : List String → Option (String × List String)
  | [] => none
  | s :: rest =>
    if s == "" then some ("", [])
    else if listHasSub s.toList text.toList then some (s, rest)
    else chooseSepAux text rest

/-- Chosen separator and remaining separators for a text (`_split_text`
header). The fallback keeps the last separator with no remainder. -/
def chooseSep (text : String) (seps : List String) : String × List String :=
  match chooseSepAux text seps with
  | some p => p
  | none =>
    match seps.getLast? with
    | some s => (s, [])
    | none => ("", [])

/-- Split of a character list on a literal nonempty separator (Python
`re.split` on the escaped separator, fragments only). Each step consumes at
least one character, so `fuel = list length` makes the recursion structural
and exact. `racc` accumulates the current fragment in reverse. -/
def splitOnAuxL (sep : List Char) : Nat → List Char → List Char → List (List Char)
  | 0, l, racc => [racc.reverse ++ l]
  | fuel + 1, l, racc =>
    match l with
    | [] => [racc.reverse]
    | c :: rest =>
      if listLeadMatch sep l then
        racc.reverse :: splitOnAuxL sep fuel (l.drop sep.length) []
      else
        splitOnAuxL sep fuel rest (c :: racc)

/-- Fragments of a character list split on a literal separator. -/
def splitOnL (sep l : List Char) : List (List Char) :=
  splitOnAuxL sep l.length l []

/-- `_split_text_with_regex(text, re.escape(sep), keep_separator=True)`:
split on the literal separator, reattach each separator occurrence to the
front of the following fragment, and drop empty fragments. The empty
separator splits into single characters. -/
def splitKeep (text sep : String) : List String :=
  if sep == "" then
    text.toList.map (fun c => String.mk [c])
  else
    match splitOnL sep.toList text.toList with
    | [] => []
    | h :: t =>
      (String.mk h :: t.map (fun s2 => sep ++ String.mk s2)).filter
        (fun s2 => ¬(s2 == ""))

/-- The popping `while` loop inside `_merge_splits`: drop splits from the
front of the running window while its total exceeds the overlap, or while
the next split would overflow the chunk size. The merge separator is empty
at every call site of this program, so separator lengths vanish. -/
def popLoop (cs ov : Int) (dLen : Nat) : List String → Nat → Nat × List String
  | [], total => (total, [])
  | c :: rest, total =>
    if ov < (total : Int) ∨ (cs < (total : Int) + (dLen : Int) ∧ 0 < total) then
      popLoop cs ov dLen rest (total - c.length)
    else (total, c :: rest)

/-- `_join_docs(docs, separator="")` with `strip_whitespace=True`: join,
strip, and drop the result when it is empty. -/
def joinDocs (docs : List String) : Option String :=
  if pyStrip (String.join docs) == "" then none
  else some (pyStrip (String.join docs))

/-- Main loop of `_merge_splits` (empty merge separator): accumulate splits
into a window; when the next split would overflow the chunk size, emit the
joined window and shrink it to within the overlap. -/
def mergeLoop (cs ov : Int) :
    List String → List String → List String → Nat → List String
  | [], docs, cur, _total => docs ++ (joinDocs cur).toList
  | d :: rest, docs, cur, total =>
    let dLen := d.length
    if cs < (total : Int) + (dLen : Int) then
      if cur.isEmpty then
        mergeLoop cs ov rest docs (cur ++ [d]) (total + dLen)
      else
        let docs2 := docs ++ (joinDocs cur).toList
        let p := popLoop cs ov dLen cur total
        mergeLoop cs ov rest docs2 (p.2 ++ [d]) (p.1 + dLen)
    else
      mergeLoop cs ov rest docs (cur ++ [d]) (total + dLen)

/-- `_merge_splits(splits, separator="")`. -/
def mergeSplits (cs ov : Int) (splits : List String) : List String :=
  mergeLoop cs ov splits [] [] 0

/-- The `for s in splits` loop of `_split_text`: splits shorter than the
chunk size accumulate; at each longer split the accumulated ones are merged
and emitted, and the long split is handled by `handleBig` (recursion on the
remaining separators, or emitted raw when none remain). -/
def processSplitsWith (cs ov : Int) (handleBig : String → List String) :
    List String → List String → List String
  | [], good => if good.isEmpty then [] else mergeSplits cs ov good
  | s :: rest, good =>
    if (s.length : Int) < cs then
      processSplitsWith cs ov handleBig rest (good ++ [s])
    else
      (if good.isEmpty then [] else mergeSplits cs ov good)
        ++ handleBig s ++ processSplitsWith cs ov handleBig rest []

/-- The remaining separator list returned by `chooseSepAux` is strictly
shorter than its input. -/
theorem chooseSepAux_length (text : String) :
    ∀ (l : List String) (p : String × List String),
      chooseSepAux text l = some p → p.2.length < l.length := by
  intro l
  induction l with
  | nil => intro p h; simp [chooseSepAux] at h
  | cons s rest ih =>
    intro p h
    simp only [chooseSepAux] at h
    split at h
    · cases h; simp
    · split at h
      · cases h; simp
      · have := ih p h
        simp only [List.length_cons]
        omega

/-- The remaining separators returned by `chooseSep` form a strictly shorter
list whenever the input list is nonempty. -/
theorem chooseSep_length (text : String) (s0 : String) (rest0 : List String) :
    (chooseSep text (s0 :: rest0)).2.length < (s0 :: rest0).length := by
  unfold chooseSep
  cases h : chooseSepAux text (s0 :: rest0) with
  | some p => exact chooseSepAux_length text _ p h
  | none =>
    cases hl : (s0 :: rest0).getLast? with
    | some s => simp
    | none => simp

/-- `RecursiveCharacterTextSplitter._split_text(text, separators)`. The
recursion descends to the strictly shorter remaining separator list, so
`fuel = number of separators` makes it structural and exact (the wrapper
`splitText` supplies it). The empty separator list is unreachable in this
program (Python would raise `IndexError` there); it returns the text
unsplit, as does exhausted fuel. -/
def splitTextAux : Nat → Int → Int → List String → String → List String
  | 0, _cs, _ov, _seps, text => [text]
  | fuel + 1, cs, ov, seps, text =>
    match seps with
    | [] => [text]
    | s0 :: rest0 =>
      processSplitsWith cs ov
        (fun big =>
          if (chooseSep text (s0 :: rest0)).2.isEmpty then [big]
          else splitTextAux fuel cs ov (chooseSep text (s0 :: rest0)).2 big)
        (splitKeep text (chooseSep text (s0 :: rest0)).1) []

/-- `_split_text(text, separators)` with adequate fuel. -/
def splitText (cs ov : Int) (seps : List String) (text : String) : List String :=
  splitTextAux seps.length cs ov seps text

/-- `split_text` of the splitter constructed by `split_documents`: the
recursive splitter with the default separators. -/
def split_text (cs ov : Int) (text : String) : List String :=
  splitText cs ov defaultSeparators text

/-- Leftmost occurrence of a pattern in a character list, offset by `i`. -/
def findSub (pat : List Char) : List Char → Nat → Option Nat
  | [], i => if listLeadMatch pat [] then some i else none
  | c :: rest, i =>
    if listLeadMatch pat (c :: rest) then some i
    else findSub pat rest (i + 1)

/-- Python `text.find(pat, start)`: index of the first occurrence at or
after `start`, `-1` when absent. -/
def pyFind (text pat : String) (start : Nat) : Int :=
  match findSub pat.toList (text.toList.drop start) 0 with
  | some j => (start : Int) + (j : Int)
  | none => -1

/-- The per-chunk loop of `TextSplitter.create_documents` with
`add_start_index=True`: each chunk becomes a `Document` carrying a deep copy
of the parent metadata plus a `start_index` found by searching the parent
text from `max(0, index + previous_chunk_len - chunk_overlap)`. -/
def createDocsLoop (ov : Int) (text : String) (md : List (String × MetaVal)) :
    List String → Int → Nat → List Document
  | [], _idx, _prevLen => []
  | chunk :: rest, idx, prevLen =>
    let offset : Int := idx + (prevLen : Int) - ov
    let found := pyFind text chunk offset.toNat
    { page_content := chunk,
      metadata := setMeta md "start_index" (MetaVal.int found) }
      :: createDocsLoop ov text md rest found chunk.length

/-- `TextSplitter.split_documents` composed with `create_documents`: split
each document's content and stamp metadata on the chunks. -/
def splitDocumentsCore (cs ov : Int) (docs : List Document) : List Document :=
  (docs.map (fun d =>
    createDocsLoop ov d.page_content d.metadata
      (split_text cs ov d.page_content) 0 0)).flatten

/-- `split_documents(documents, chunk_size=None)` of
`src/ingestion/splitter.py`: the effective size is
`chunk_size or settings.chunk_size` (Python `or`, so `None` and `0` both
fall back to the configured default); the overlap always comes from
`settings.chunk_overlap`. The `TextSplitter` constructor raises
`ValueError` when the overlap exceeds the chunk size. -/
def split_documents (s : AppSettings) (docs : List Document)
    (chunkSizeArg : Option Int) : Except PyError (List Document) :=
  let final_chunk_size : Int :=
    match chunkSizeArg with
    | some n => if n == 0 then s.chunk_size else n
    | none => s.chunk_size
  if s.chunk_overlap > final_chunk_size then
    .error (.valueError "Got a larger chunk overlap than chunk size")
  else
    .ok (splitDocumentsCore final_chunk_size s.chunk_overlap docs)

/-! ## CLI ingest path (`src/main.py` `ingest`) -/

/-- Outcome of the CLI `ingest` subcommand. -/
inductive CliOutcome
  | exited (code : Nat)
  | abortedNoDocs
  | completed (effects : IngestEffects)
deriving DecidableEq, Repr

/-- `ingest(data_dir)` of `src/main.py`: loads through
`IngestionManager.load`, warns and returns when no documents were loaded,
otherwise chunks through `IngestionManager.chunk` (no explicit chunk size)
and persists; any exception in the `try` block exits with status 1. -/
def cliIngest (s : AppSettings) (files : List DirFile)
    (fs : Option (List Document)) : CliOutcome :=
  match managerLoad [] files with
  | .error _ => .exited 1
  | .ok docs =>
    if docs.isEmpty then .abortedNoDocs
    else
      match split_documents s docs none with
      | .error _ => .exited 1
      | .ok chunks => .completed (create_vector_store chunks fs)

/-! ## Theorems for the claims -/

/-- C1: the search formatting loop keeps exactly the entries whose score is
at or above the fixed 0.3 threshold, preserves their original order, and
rounds each surviving score to 4 decimal places; and on scores
[0.9, 0.5, 0.2, 0.1] exactly the first two survive, in descending order. -/
theorem c1_search_filter_threshold_order_round :
    (∀ l : List (Document × ℚ),
      formatResults l
        = (l.filter (fun p => SIMILARITY_THRESHOLD ≤ p.2)).map
            (fun p => mkResultRecord p.1 p.2))
    ∧ (formatResults
        [(⟨"a", []⟩, 9 / 10), (⟨"b", []⟩, 5 / 10),
         (⟨"c", []⟩, 2 / 10), (⟨"d", []⟩, 1 / 10)]).map (fun r => r.score)
        = [9 / 10, 5 / 10] := by
  constructor
  · intro l
    induction l with
    | nil => rfl
    | cons hd tl ih =>
      obtain ⟨d, sc⟩ := hd
      by_cases h : SIMILARITY_THRESHOLD ≤ sc
      · simp [formatResults, h, List.filter_cons, ih]
      · simp [formatResults, h, List.filter_cons, ih]
  · have h1 : SIMILARITY_THRESHOLD ≤ 9 / 10 := by norm_num [SIMILARITY_THRESHOLD]
    have h2 : SIMILARITY_THRESHOLD ≤ 5 / 10 := by norm_num [SIMILARITY_THRESHOLD]
    have h3 : ¬ SIMILARITY_THRESHOLD ≤ 2 / 10 := by norm_num [SIMILARITY_THRESHOLD]
    have h4 : ¬ SIMILARITY_THRESHOLD ≤ 1 / 10 := by norm_num [SIMILARITY_THRESHOLD]
    have r1 : round4 (9 / 10) = 9 / 10 := by
      norm_num [round4, roundHalfEven]
    have r2 : round4 (5 / 10) = 5 / 10 := by
      norm_num [round4, roundHalfEven]
    simp [formatResults, h1, h2, h3, h4, mkResultRecord, r1, r2]
    norm_num [SIMILARITY_THRESHOLD]

/-- C2: a query that is empty or whitespace-only returns status 200 with an
empty results list, and neither the store factory, the store property, nor
the similarity query is invoked. -/
theorem c2_blank_query_short_circuits (s : AppSettings) (w : StoreWorld)
    (query : String) (h : pyStrip query = "") :
    search s w query
      = ({ status := 200, results := [] },
         { factoryCalled := false, storeAccessed := false,
           similarityCalled := false }) := by
  simp [search, h]

/-- Witness for C2 at the whitespace-only query. -/
theorem c2_blank_query_short_circuits_witness :
    pyStrip " \t " = ""
    ∧ search defaultSettings ⟨true, false, []⟩ " \t "
        = ({ status := 200, results := [] },
           { factoryCalled := false, storeAccessed := false,
             similarityCalled := false }) :=
  ⟨by decide,
   c2_blank_query_short_circuits defaultSettings ⟨true, false, []⟩ " \t " (by decide)⟩

/-- C3: with a valid configuration and a non-blank query, the endpoint
answers 503 exactly when the persistence path is missing, and a failure
inside the similarity query answers 500; hence a missing store is never
surfaced as the generic 500. -/
theorem c3_missing_store_503_other_500 (s : AppSettings) (w : StoreWorld)
    (query : String)
    (hq : ¬ pyStrip query = "")
    (hdb : s.vector_db_type = "chroma")
    (hemb : s.embedding_provider = "openai" ∨ s.embedding_provider = "google"
            ∨ s.embedding_provider = "huggingface") :
    ((search s w query).1.status = 503 ↔ w.pathExists = false)
    ∧ (w.pathExists = true → w.similarityFails = true →
        (search s w query).1.status = 500) := by
  have hgv : ∃ m, get_vector_db s = .ok m := by
    rcases hemb with h1 | h1 | h1 <;>
      simp [get_vector_db, get_embedding_model, hdb, h1]
  obtain ⟨m, hm⟩ := hgv
  cases hpe : w.pathExists with
  | false =>
    constructor
    · simp [search, hq, hm, storeAccess, hpe, errResponse]
    · intro h1
      simp at h1
  | true =>
    cases hsf : w.similarityFails with
    | false =>
      constructor
      · simp [search, hq, hm, storeAccess, hpe, hsf]
      · intro _ h2
        simp at h2
    | true =>
      constructor
      · simp [search, hq, hm, storeAccess, hpe, hsf, errResponse]
      · intro _ _
        simp [search, hq, hm, storeAccess, hpe, hsf, errResponse]

/-- Witness for C3 at a missing persistence path with the default settings. -/
theorem c3_missing_store_503_other_500_witness :
    ((search defaultSettings ⟨false, false, []⟩ "q").1.status = 503
      ↔ (false : Bool) = false)
    ∧ ((false : Bool) = true → (false : Bool) = true →
        (search defaultSettings ⟨false, false, []⟩ "q").1.status = 500) :=
  c3_missing_store_503_other_500 defaultSettings ⟨false, false, []⟩ "q"
    (by decide) rfl (Or.inr (Or.inr rfl))

/-- C4 counterexample: with a directory whose first PDF fails to parse and
whose second parses fine, `load_documents` raises the parse failure to the
caller instead of skipping the file and returning the remaining documents. -/
theorem c4_per_file_failure_counterexample :
    load_documents
      [⟨"a.pdf", .error "parse failure: corrupted file"⟩,
       ⟨"b.pdf", .ok [⟨"good text", []⟩]⟩]
      = .error "parse failure: corrupted file" := by decide

/-- Any matched file with a failing parse makes the sequential load raise. -/
theorem loadMatched_error_of_mem (l : List DirFile) (f : DirFile) (e : String)
    (hf : f ∈ l) (he : f.parsed = .error e) :
    ∃ e2, loadMatched l = .error e2 := by
  induction l with
  | nil => cases hf
  | cons g rest ih =>
    rcases List.mem_cons.mp hf with rfl | hmem
    · exact ⟨e, by simp [loadMatched, he]⟩
    · cases hg : g.parsed with
      | error e3 => exact ⟨e3, by simp [loadMatched, hg]⟩
      | ok docs =>
        obtain ⟨e2, h2⟩ := ih hmem
        exact ⟨e2, by simp [loadMatched, hg, h2]⟩

/-- C4 amended: a per-file parse failure of a glob-matched file is re-raised
by `load_documents`, aborting the whole load; no skip-and-continue occurs. -/
theorem c4_per_file_failure_propagates (files : List DirFile) (f : DirFile)
    (e : String) (hf : f ∈ files) (hglob : fnmatchStr "*.pdf" f.name = true)
    (he : f.parsed = .error e) :
    ∃ e2, load_documents files = .error e2 := by
  have hmem : f ∈ files.filter (fun g => fnmatchStr "*.pdf" g.name) :=
    List.mem_filter.mpr ⟨hf, hglob⟩
  obtain ⟨e2, h2⟩ := loadMatched_error_of_mem _ f e hmem he
  exact ⟨e2, by simp [load_documents, directoryLoaderLoad, h2]⟩

/-- Witness for the amended C4 at a one-file directory. -/
theorem c4_per_file_failure_propagates_witness :
    (⟨"a.pdf", .error "bad"⟩ : DirFile) ∈ [(⟨"a.pdf", .error "bad"⟩ : DirFile)]
    ∧ fnmatchStr "*.pdf" "a.pdf" = true
    ∧ ∃ e2, load_documents [(⟨"a.pdf", .error "bad"⟩ : DirFile)] = .error e2 :=
  ⟨by decide, by decide,
   c4_per_file_failure_propagates [⟨"a.pdf", .error "bad"⟩]
     ⟨"a.pdf", .error "bad"⟩ "bad" (by decide) (by decide) rfl⟩

/-- C5 counterexample: a directory containing one CSV file (whose parser
would yield a document with a title mapped into `source`) produces no
documents at all: the loader's glob is fixed to `*.pdf`, so the CSV is
never dispatched to any parser. -/
theorem c5_csv_never_scanned_counterexample :
    load_documents
      [⟨"roles.csv", .ok [⟨"Data Engineer bio",
          [("source", MetaVal.str "Data Engineer")]⟩]⟩]
      = .ok []
    ∧ fnmatchStr "*.pdf" "roles.csv" = false := by decide

/-- C5 amended: `load_documents` scans only files matching the fixed glob
`*.pdf` and dispatches them to the PDF parser; in particular a directory
with no PDF file loads as the empty list, whatever other files it holds. -/
theorem c5_loader_scans_only_pdf (files : List DirFile) :
    load_documents files
      = loadMatched (files.filter (fun f => fnmatchStr "*.pdf" f.name))
    ∧ (files.filter (fun f => fnmatchStr "*.pdf" f.name) = [] →
        load_documents files = .ok []) := by
  constructor
  · cases h : loadMatched (files.filter (fun f => fnmatchStr "*.pdf" f.name)) with
    | ok docs => simp [load_documents, directoryLoaderLoad, h]
    | error e => simp [load_documents, directoryLoaderLoad, h]
  · intro h
    simp [load_documents, directoryLoaderLoad, h, loadMatched]

/-- Witness for the amended C5 at a CSV-only directory. -/
theorem c5_loader_scans_only_pdf_witness :
    load_documents [(⟨"roles.csv", .ok [⟨"x", []⟩]⟩ : DirFile)]
      = loadMatched
          ([(⟨"roles.csv", .ok [⟨"x", []⟩]⟩ : DirFile)].filter
            (fun f => fnmatchStr "*.pdf" f.name))
    ∧ load_documents [(⟨"roles.csv", .ok [⟨"x", []⟩]⟩ : DirFile)] = .ok [] :=
  ⟨(c5_loader_scans_only_pdf [⟨"roles.csv", .ok [⟨"x", []⟩]⟩]).1,
   (c5_loader_scans_only_pdf [⟨"roles.csv", .ok [⟨"x", []⟩]⟩]).2 (by decide)⟩

/-- C6: writing a non-empty chunk list deletes the persistence path exactly
when it already exists and then writes the chunks; an empty chunk list only
warns, performing no deletion and no write and leaving the path unchanged. -/
theorem c6_create_vector_store_effects (chunks : List Document)
    (fs : Option (List Document)) :
    (chunks ≠ [] →
      create_vector_store chunks fs
        = { fsAfter := some chunks, deletedExisting := fs.isSome, wrote := true,
            warnedEmpty := false })
    ∧ (chunks = [] →
      create_vector_store chunks fs
        = { fsAfter := fs, deletedExisting := false, wrote := false,
            warnedEmpty := true }) := by
  constructor
  · intro h
    simp [create_vector_store, h]
  · intro h
    subst h
    simp [create_vector_store]

/-- Witness for C6: a write over an existing store deletes it first; an
empty write leaves the existing store untouched. -/
theorem c6_create_vector_store_effects_witness :
    create_vector_store [⟨"new", []⟩] (some [⟨"old", []⟩])
      = { fsAfter := some [⟨"new", []⟩], deletedExisting := true, wrote := true,
          warnedEmpty := false }
    ∧ create_vector_store [] (some [⟨"old", []⟩])
      = { fsAfter := some [⟨"old", []⟩], deletedExisting := false, wrote := false,
          warnedEmpty := true } :=
  ⟨by
    have h := (c6_create_vector_store_effects [⟨"new", []⟩] (some [⟨"old", []⟩])).1
      (by decide)
    simpa using h,
   (c6_create_vector_store_effects [] (some [⟨"old", []⟩])).2 rfl⟩

/-- C7 counterexample: for the unsupported provider value `anthropic` the
LLM selection does not fail; it silently returns the default OpenAI model. -/
theorem c7_silent_default_counterexample :
    get_llm_model { defaultSettings with llm_provider := "anthropic" }
      = .ok (.openaiChat "gpt-4o")
    ∧ ¬ ("anthropic" ∈ supportedLLMProviders) := by decide

/-- C7 amended: the LLM selection never fails: it returns the Google model
when the provider is `google` and silently returns the configured OpenAI
model for every other provider value, supported or not. -/
theorem c7_llm_selection_never_fails (s : AppSettings) :
    (s.llm_provider = "google" →
      get_llm_model s = .ok (.googleChat s.google_model_name))
    ∧ (s.llm_provider ≠ "google" →
      get_llm_model s = .ok (.openaiChat s.openai_model_name))
    ∧ ∀ e, get_llm_model s ≠ .error e := by
  refine ⟨fun h => by simp [get_llm_model, h], fun h => by simp [get_llm_model, h], ?_⟩
  intro e
  by_cases h : s.llm_provider = "google" <;> simp [get_llm_model, h]

/-- Witness for the amended C7 at the default (google) and at an
unsupported provider. -/
theorem c7_llm_selection_never_fails_witness :
    get_llm_model defaultSettings = .ok (.googleChat "gemini-2.5-flash")
    ∧ get_llm_model { defaultSettings with llm_provider := "mistral" }
        = .ok (.openaiChat "gpt-4o") :=
  ⟨(c7_llm_selection_never_fails defaultSettings).1 rfl,
   ((c7_llm_selection_never_fails
      { defaultSettings with llm_provider := "mistral" }).2).1 (by decide)⟩

/-- C10: `IngestionManager.load` always forwards a `glob_pattern` keyword to
`load_documents`, whose signature has only `directory_path`, so the call
raises `TypeError` for every input; consequently the CLI ingest path always
exits with status 1 and never loads documents through the manager. -/
theorem c10_manager_load_always_type_error :
    (∀ (kwargs : List (String × String)) (files : List DirFile),
      managerLoad kwargs files
        = .error (.typeError
            "load_documents() got an unexpected keyword argument glob_pattern"))
    ∧ ∀ (s : AppSettings) (files : List DirFile) (fs : Option (List Document)),
        cliIngest s files fs = .exited 1 := by
  constructor
  · intro kwargs files
    rfl
  · intro s files fs
    rfl

/-- C9 counterexample: with the explicitly provided `chunk_size=0`, the
result follows the configuration default, not the provided argument: under
the default settings the call succeeds with one whole-document chunk, while
the same call under a configured default of 5 raises the overlap
`ValueError` — so an effective size of 0 was honoured in neither case. -/
theorem c9_chunk_size_zero_counterexample :
    split_documents defaultSettings [⟨"hello world", []⟩] (some 0)
      = .ok [⟨"hello world", [("start_index", MetaVal.int 0)]⟩]
    ∧ split_documents { defaultSettings with chunk_size := 5 }
        [⟨"hello world", []⟩] (some 0)
      = .error (.valueError "Got a larger chunk overlap than chunk size") := by
  decide

/-- C9 amended: the effective chunk size equals the provided argument when
it is nonzero; a provided 0 behaves exactly like an absent argument (Python
`or` treats 0 as falsy), falling back to `settings.chunk_size`; the overlap
is always `settings.chunk_overlap`. -/
theorem c9_effective_chunk_size (s : AppSettings) (docs : List Document) (c : Int) :
    (c ≠ 0 → split_documents s docs (some c)
        = split_documents { s with chunk_size := c } docs none)
    ∧ split_documents s docs (some 0) = split_documents s docs none
    ∧ split_documents s docs none
        = (if s.chunk_overlap > s.chunk_size then
             .error (.valueError "Got a larger chunk overlap than chunk size")
           else .ok (splitDocumentsCore s.chunk_size s.chunk_overlap docs)) := by
  refine ⟨fun h => ?_, ?_, ?_⟩
  · have hb : (c == 0) = false := by
      simp [h]
    simp [split_documents, hb]
  · simp [split_documents]
  · rfl

/-- Witness for the amended C9 at a nonzero explicit chunk size. -/
theorem c9_effective_chunk_size_witness :
    split_documents defaultSettings [⟨"ab", []⟩] (some 500)
      = split_documents { defaultSettings with chunk_size := 500 } [⟨"ab", []⟩] none :=
  (c9_effective_chunk_size defaultSettings [⟨"ab", []⟩] 500).1 (by decide)

/-! ### Chunk-length bound for the splitter (C8) -/

/-- Sum of lengths distributes over append. -/
theorem sumLen_append (l1 l2 : List String) :
    sumLen (l1 ++ l2) = sumLen l1 + sumLen l2 := by
  simp [sumLen]

/-- Length of a fold of string appends. -/
theorem foldl_append_length (l : List String) :
    ∀ init : String,
      (l.foldl (fun r s2 => r ++ s2) init).length = init.length + sumLen l := by
  induction l with
  | nil => intro init; simp [sumLen]
  | cons h t ih =>
    intro init
    simp [List.foldl, ih, sumLen]
    omega

/-- Length of `String.join` is the sum of lengths. -/
theorem join_length (l : List String) : (String.join l).length = sumLen l := by
  simpa using foldl_append_length l ""

/-- Dropping a prefix never lengthens a list. -/
theorem dropWhile_length_le (p : Char → Bool) (l : List Char) :
    (l.dropWhile p).length ≤ l.length := by
  induction l with
  | nil => simp
  | cons c rest ih =>
    rw [List.dropWhile_cons]
    split
    · calc (rest.dropWhile p).length ≤ rest.length := ih
        _ ≤ (c :: rest).length := by simp
    · exact le_refl _

/-- Stripping never lengthens a string. -/
theorem pyStrip_length_le (s : String) : (pyStrip s).length ≤ s.length := by
  have h1 := dropWhile_length_le pyIsSpace ((s.toList.dropWhile pyIsSpace).reverse)
  have h2 := dropWhile_length_le pyIsSpace s.toList
  have h3 : (pyStrip s).length
      = (((s.toList.dropWhile pyIsSpace).reverse.dropWhile pyIsSpace).reverse).length :=
    rfl
  have h4 : s.toList.length = s.length := rfl
  rw [h3, List.length_reverse]
  rw [List.length_reverse] at h1
  omega

/-- A join emitted by `joinDocs` is at most the total length of the window. -/
theorem joinDocs_length (cur : List String) (s2 : String)
    (h : joinDocs cur = some s2) : s2.length ≤ sumLen cur := by
  unfold joinDocs at h
  split at h
  · cases h
  · have hs2 : s2 = pyStrip (String.join cur) := by
      cases h
      rfl
    rw [hs2]
    calc (pyStrip (String.join cur)).length
        ≤ (String.join cur).length := pyStrip_length_le _
      _ = sumLen cur := join_length cur

/-- Specification of the popping loop: it preserves the running-total
invariant, and afterwards either the next split fits or the window is
empty. -/
theorem popLoop_spec (cs ov : Int) (dLen : Nat) :
    ∀ (cur : List String) (total : Nat), total = sumLen cur →
      (popLoop cs ov dLen cur total).1 = sumLen (popLoop cs ov dLen cur total).2
      ∧ (((popLoop cs ov dLen cur total).1 : Int) + (dLen : Int) ≤ cs
          ∨ (popLoop cs ov dLen cur total).1 = 0) := by
  intro cur
  induction cur with
  | nil =>
    intro total h
    simp [sumLen] at h
    simp [popLoop, h, sumLen]
  | cons c rest ih =>
    intro total h
    have hsum : sumLen (c :: rest) = c.length + sumLen rest := by simp [sumLen]
    unfold popLoop
    split
    · exact ih (total - c.length) (by omega)
    · rename_i hcond
      constructor
      · simpa using h
      · rw [not_or] at hcond
        rcases hcond with ⟨h1, h2⟩
        rw [not_and_or] at h2
        rcases h2 with h2 | h2
        · left
          simpa using le_of_not_lt h2
        · right
          simpa using h2

/-- Every chunk emitted by the merge loop is at most the chunk size, given
that every incoming split is strictly below it and the running window
respects the bound. -/
theorem mergeLoop_bound (cs ov : Int) :
    ∀ (splits docs cur : List String) (total : Nat),
      (∀ s2 ∈ splits, (s2.length : Int) < cs) →
      total = sumLen cur →
      ((total : Int) ≤ cs) →
      (∀ c ∈ docs, (c.length : Int) ≤ cs) →
      ∀ c ∈ mergeLoop cs ov splits docs cur total, (c.length : Int) ≤ cs := by
  intro splits
  induction splits with
  | nil =>
    intro docs cur total _ htot hle hdocs c hc
    unfold mergeLoop at hc
    rcases List.mem_append.mp hc with hmem | hmem
    · exact hdocs c hmem
    · cases hj : joinDocs cur with
      | none => rw [hj] at hmem; cases hmem
      | some s2 =>
        rw [hj] at hmem
        have hcs2 : c = s2 := by simpa using hmem
        have hlen := joinDocs_length cur s2 hj
        rw [← htot] at hlen
        rw [hcs2]
        calc (s2.length : Int) ≤ (total : Int) := by exact_mod_cast hlen
          _ ≤ cs := hle
  | cons d rest ih =>
    intro docs cur total hsplits htot hle hdocs c hc
    have hd : (d.length : Int) < cs := hsplits d (by simp)
    have hrest : ∀ s2 ∈ rest, (s2.length : Int) < cs := by
      intro s2 hs2
      exact hsplits s2 (by simp [hs2])
    unfold mergeLoop at hc
    simp only at hc
    split at hc
    · split at hc
      · rename_i hcur
        have hcur2 : cur = [] := by
          cases cur with
          | nil => rfl
          | cons a b => simp at hcur
        subst hcur2
        refine ih docs [d] (total + d.length) hrest ?_ ?_ hdocs c ?_
        · simp [sumLen] at htot ⊢
          omega
        · simp [sumLen] at htot
          omega
        · simpa using hc
      · have hp := popLoop_spec cs ov d.length cur total htot
        refine ih (docs ++ (joinDocs cur).toList)
          ((popLoop cs ov d.length cur total).2 ++ [d])
          ((popLoop cs ov d.length cur total).1 + d.length)
          hrest ?_ ?_ ?_ c ?_
        · rw [sumLen_append]
          simp [sumLen, hp.1]
        · rcases hp.2 with h2 | h2
          · push_cast
            omega
          · rw [h2]
            simpa using le_of_lt hd
        · intro c2 hc2
          rcases List.mem_append.mp hc2 with hmem | hmem
          · exact hdocs c2 hmem
          · cases hj : joinDocs cur with
            | none => rw [hj] at hmem; cases hmem
            | some s2 =>
              rw [hj] at hmem
              have hcs2 : c2 = s2 := by simpa using hmem
              have hlen := joinDocs_length cur s2 hj
              rw [← htot] at hlen
              rw [hcs2]
              calc (s2.length : Int) ≤ (total : Int) := by exact_mod_cast hlen
                _ ≤ cs := hle
        · simpa using hc
    · rename_i hcond
      have hfits : (total : Int) + (d.length : Int) ≤ cs := le_of_not_lt hcond
      refine ih docs (cur ++ [d]) (total + d.length) hrest ?_ ?_ hdocs c ?_
      · rw [sumLen_append]
        simp [sumLen, htot]
      · push_cast
        push_cast at hfits
        omega
      · simpa using hc

/-- Every chunk produced by `mergeSplits` from splits strictly below the
chunk size is at most the chunk size. -/
theorem mergeSplits_bound (cs ov : Int) (h0 : (0 : Int) ≤ cs)
    (good : List String) (hg : ∀ s2 ∈ good, (s2.length : Int) < cs) :
    ∀ c ∈ mergeSplits cs ov good, (c.length : Int) ≤ cs :=
  mergeLoop_bound cs ov good [] [] 0 hg (by simp [sumLen]) (by simpa using h0)
    (by intro c hc; cases hc)

/-- Every chunk produced by the split-processing loop is at most the chunk
size, given that the handler for long splits respects the bound. -/
theorem processSplitsWith_bound (cs ov : Int) (h0 : (0 : Int) ≤ cs)
    (hB : String → List String) :
    ∀ (splits good : List String),
      (∀ x ∈ good, (x.length : Int) < cs) →
      (∀ s2 ∈ splits, ¬ ((s2.length : Int) < cs) →
        ∀ c ∈ hB s2, (c.length : Int) ≤ cs) →
      ∀ c ∈ processSplitsWith cs ov hB splits good, (c.length : Int) ≤ cs := by
  intro splits
  induction splits with
  | nil =>
    intro good hg _ c hc
    unfold processSplitsWith at hc
    split at hc
    · cases hc
    · exact mergeSplits_bound cs ov h0 good hg c hc
  | cons s rest ih =>
    intro good hg hbig c hc
    unfold processSplitsWith at hc
    split at hc
    · rename_i hgood
      refine ih (good ++ [s]) ?_ ?_ c hc
      · intro x hx
        rcases List.mem_append.mp hx with hmem | hmem
        · exact hg x hmem
        · simp at hmem
          subst hmem
          exact hgood
      · intro s2 hs2
        exact hbig s2 (by simp [hs2])
    · rename_i hgood
      rcases List.mem_append.mp hc with hmem | hmem
      · rcases List.mem_append.mp hmem with hmem2 | hmem2
        · split at hmem2
          · cases hmem2
          · exact mergeSplits_bound cs ov h0 good hg c hmem2
        · exact hbig s (by simp) hgood c hmem2
      · refine ih [] ?_ ?_ c hmem
        · intro x hx
          cases hx
        · intro s2 hs2
          exact hbig s2 (by simp [hs2])

/-- When the empty separator is among the candidates, `chooseSepAux` always
selects one, and either it selects the empty separator with no remainder or
a nonempty one with the empty separator still in the remainder. -/
theorem chooseSepAux_empty_mem (text : String) :
    ∀ l : List String, "" ∈ l →
      ∃ p, chooseSepAux text l = some p
        ∧ (p = ("", []) ∨ (p.1 ≠ "" ∧ "" ∈ p.2)) := by
  intro l
  induction l with
  | nil => intro h; cases h
  | cons s rest ih =>
    intro hmem
    by_cases hs : s = ""
    · subst hs
      exact ⟨("", []), by simp [chooseSepAux], Or.inl rfl⟩
    · have hrest : "" ∈ rest := by
        rcases List.mem_cons.mp hmem with h | h
        · exact absurd h.symm hs
        · exact h
      by_cases hsub : listHasSub s.toList text.toList
      · refine ⟨(s, rest), ?_, Or.inr ⟨hs, hrest⟩⟩
        simp only [chooseSepAux]
        rw [if_neg (by simpa using hs), if_pos (by simpa using hsub)]
      · obtain ⟨p, hp, hdisj⟩ := ih hrest
        refine ⟨p, ?_, hdisj⟩
        simp only [chooseSepAux]
        rw [if_neg (by simpa using hs), if_neg (by simpa using hsub)]
        exact hp

/-- Every fragment of a split on the empty separator is a single character. -/
theorem splitKeep_empty_sep (text : String) :
    ∀ s2 ∈ splitKeep text "", s2.length = 1 := by
  intro s2 hs2
  simp [splitKeep] at hs2
  obtain ⟨c, _, rfl⟩ := hs2
  rfl

/-- Main chunk-length bound: with at least one character of chunk size and
the empty separator among the candidates, every chunk produced by
`_split_text` has length at most the chunk size. -/
theorem splitTextAux_bound (cs ov : Int) (h1 : (1 : Int) ≤ cs) :
    ∀ (fuel : Nat) (seps : List String) (text : String),
      "" ∈ seps → seps.length ≤ fuel →
      ∀ c ∈ splitTextAux fuel cs ov seps text, (c.length : Int) ≤ cs := by
  intro fuel
  induction fuel with
  | zero =>
    intro seps text hsep hlen
    cases seps with
    | nil => cases hsep
    | cons a b => simp at hlen
  | succ fuel ih =>
    intro seps text hsep hlen c hc
    cases seps with
    | nil => cases hsep
    | cons s0 rest0 =>
      simp only [splitTextAux] at hc
      obtain ⟨p, hp, hdisj⟩ := chooseSepAux_empty_mem text (s0 :: rest0) hsep
      have hcs : chooseSep text (s0 :: rest0) = p := by
        simp [chooseSep, hp]
      refine processSplitsWith_bound cs ov (by omega) _ _ [] ?_ ?_ c hc
      · intro x hx
        cases hx
      · intro s2 hs2 hlong c2 hc2
        rcases hdisj with heq | ⟨hne, hmem⟩
        · rw [hcs, heq] at hc2 hs2
          simp only [List.isEmpty_nil, if_pos] at hc2
          have : s2.length = 1 := splitKeep_empty_sep text s2 (by simpa using hs2)
          simp at hc2
          subst hc2
          rw [this]
          exact h1
        · have hne2 : (chooseSep text (s0 :: rest0)).2.isEmpty = false := by
            rw [hcs]
            cases hp2 : p.2 with
            | nil => rw [hp2] at hmem; cases hmem
            | cons a b => simp [hp2]
          rw [hne2] at hc2
          simp only [Bool.false_eq_true, if_false] at hc2
          have hlt : (chooseSep text (s0 :: rest0)).2.length < (s0 :: rest0).length :=
            chooseSep_length text s0 rest0
          refine ih (chooseSep text (s0 :: rest0)).2 s2 ?_ ?_ c2 hc2
          · rw [hcs]; exact hmem
          · simp only [List.length_cons] at hlt hlen
            omega

/-- Chunks of `createDocsLoop` carry exactly the chunk strings as content. -/
theorem createDocsLoop_content (ov : Int) (text : String)
    (md : List (String × MetaVal)) :
    ∀ (chunks : List String) (idx : Int) (prevLen : Nat) (d : Document),
      d ∈ createDocsLoop ov text md chunks idx prevLen →
      ∃ c ∈ chunks, d.page_content = c := by
  intro chunks
  induction chunks with
  | nil => intro idx prevLen d hd; cases hd
  | cons chunk rest ih =>
    intro idx prevLen d hd
    simp only [createDocsLoop] at hd
    rcases List.mem_cons.mp hd with h | h
    · exact ⟨chunk, by simp, by rw [h]⟩
    · obtain ⟨c, hc, hcon⟩ := ih _ _ d h
      exact ⟨c, by simp [hc], hcon⟩

/-- C8 counterexample: splitting `"hello world"` at chunk size 6 and
overlap 0 yields the chunks `"hello"` and `"world"`: the separating space,
stripped at the chunk boundary, appears in no chunk, so no reassembly of
chunk contents covers the document's full content. -/
theorem c8_coverage_counterexample :
    splitDocumentsCore 6 0 [⟨"hello world", []⟩]
      = [⟨"hello", [("start_index", MetaVal.int 0)]⟩,
         ⟨"world", [("start_index", MetaVal.int 6)]⟩]
    ∧ ' ' ∈ "hello world".toList
    ∧ (splitDocumentsCore 6 0 [⟨"hello world", []⟩]).all
        (fun d => !(d.page_content.toList.contains ' ')) = true := by
  decide

/-- C8 amended: for every positive effective chunk size and any overlap,
every chunk produced by the splitting pipeline has content length at most
the effective chunk size; the full-coverage half of the original claim
fails (whitespace at chunk boundaries is stripped). -/
theorem c8_chunk_length_bound (cs ov : Int) (h1 : (1 : Int) ≤ cs)
    (docs : List Document) :
    ∀ d ∈ splitDocumentsCore cs ov docs, (d.page_content.length : Int) ≤ cs := by
  intro d hd
  simp only [splitDocumentsCore, List.mem_flatten, List.mem_map] at hd
  obtain ⟨l, ⟨doc, hdoc, hl⟩, hmem⟩ := hd
  subst hl
  obtain ⟨c, hc, hcontent⟩ := createDocsLoop_content ov doc.page_content
    doc.metadata _ 0 0 d hmem
  rw [hcontent]
  exact splitTextAux_bound cs ov h1 defaultSeparators.length defaultSeparators
    doc.page_content (by simp [defaultSeparators]) (le_refl _) c hc

/-- Witness for the amended C8: the bound applied at chunk size 6 to a
concrete chunk of `"hello world"`. -/
theorem c8_chunk_length_bound_witness :
    (((Document.mk "hello" [("start_index", MetaVal.int 0)]).page_content.length : Int))
      ≤ 6 :=
  c8_chunk_length_bound 6 0 (by norm_num) [⟨"hello world", []⟩]
    ⟨"hello", [("start_index", MetaVal.int 0)]⟩ (by decide)

end Rag
